import Mathlib

/-!
# Verification of the retirement-savings simulation engine

Shallow embedding of `src/utils/finance.js` (date arithmetic and the
annuity projection) and of the behaviour the specification ascribes to it.

Modelling conventions:

* JavaScript numbers are modelled by `JsNum`: either NaN, +Infinity,
  -Infinity, or a finite value carried as an exact rational.  Floating-point
  rounding and overflow-to-infinity are not modelled; every claim below is
  about control flow, error selection, calendar arithmetic, or exact
  algebraic identities, none of which depend on rounding.
* `Math.pow` with a non-integer exponent and a positive base is
  transcendental, so it is kept abstract: a `PowModel` supplies that single
  case, and every theorem is proved for an arbitrary `PowModel`, hence in
  particular for the real power function.  Integer exponents and the
  special cases fixed by the ECMAScript specification (negative base with
  non-integer exponent gives NaN, etc.) are computed exactly.
* JavaScript `Date` values at UTC midnight are modelled by `JsDate`
  (year / 0-based month / 1-based day).  `Date.UTC` semantics are mirrored,
  including the two-digit-year rule (years 0..99 are mapped to 1900+y) and
  the overflow normalization of out-of-range month and day components.
* A JS function that throws becomes a Lean function into `Except FinErr _`;
  an argument that may fail `instanceof Date`/validity checks becomes an
  `Option JsDate` (with `none` standing for a non-Date or invalid Date).
-/

/-- A JavaScript number: NaN, the two infinities, or a finite value
(modelled as an exact rational). -/
inductive JsNum where
  | nan
  | inf
  | ninf
  | fin (q : ℚ)
deriving DecidableEq

namespace JsNum

/-- `Number.isNaN`. -/
def isNaNb : JsNum → Bool
  | .nan => true
  | _ => false

/-- `Number.isFinite`. -/
def isFiniteb : JsNum → Bool
  | .fin _ => true
  | _ => false

/-- `Number.isInteger`. -/
def isIntegerB : JsNum → Bool
  | .fin q => q.den == 1
  | _ => false

end JsNum

/-- JavaScript `<=` on numbers: false whenever an operand is NaN. -/
def jsLe : JsNum → JsNum → Bool
  | .fin a, .fin b => a ≤ b
  | .fin _, .inf => true
  | .ninf, .fin _ => true
  | .ninf, .inf => true
  | .inf, .inf => true
  | .ninf, .ninf => true
  | _, _ => false

/-- JavaScript `<` on numbers: false whenever an operand is NaN. -/
def jsLt : JsNum → JsNum → Bool
  | .fin a, .fin b => a < b
  | .fin _, .inf => true
  | .ninf, .fin _ => true
  | .ninf, .inf => true
  | _, _ => false

/-- JavaScript addition (overflow to infinity not modelled). -/
def jsAdd : JsNum → JsNum → JsNum
  | .nan, _ => .nan
  | _, .nan => .nan
  | .inf, .ninf => .nan
  | .ninf, .inf => .nan
  | .inf, _ => .inf
  | _, .inf => .inf
  | .ninf, _ => .ninf
  | _, .ninf => .ninf
  | .fin a, .fin b => .fin (a + b)

/-- JavaScript unary negation. -/
def jsNeg : JsNum → JsNum
  | .nan => .nan
  | .inf => .ninf
  | .ninf => .inf
  | .fin q => .fin (-q)

/-- JavaScript subtraction. -/
def jsSub (a b : JsNum) : JsNum := jsAdd a (jsNeg b)

/-- JavaScript multiplication (signed zeros not modelled). -/
def jsMul : JsNum → JsNum → JsNum
  | .nan, _ => .nan
  | _, .nan => .nan
  | .inf, .inf => .inf
  | .ninf, .ninf => .inf
  | .inf, .ninf => .ninf
  | .ninf, .inf => .ninf
  | .inf, .fin q => if q = 0 then .nan else if 0 < q then .inf else .ninf
  | .fin q, .inf => if q = 0 then .nan else if 0 < q then .inf else .ninf
  | .ninf, .fin q => if q = 0 then .nan else if 0 < q then .ninf else .inf
  | .fin q, .ninf => if q = 0 then .nan else if 0 < q then .ninf else .inf
  | .fin a, .fin b => .fin (a * b)

/-- JavaScript division (signed zeros not modelled; division by zero of a
nonzero numerator yields an infinity by sign, `0/0` yields NaN). -/
def jsDiv : JsNum → JsNum → JsNum
  | .nan, _ => .nan
  | _, .nan => .nan
  | .inf, .inf => .nan
  | .inf, .ninf => .nan
  | .ninf, .inf => .nan
  | .ninf, .ninf => .nan
  | .inf, .fin q => if q < 0 then .ninf else .inf
  | .ninf, .fin q => if q < 0 then .inf else .ninf
  | .fin _, .inf => .fin 0
  | .fin _, .ninf => .fin 0
  | .fin a, .fin b =>
    if b = 0 then (if a = 0 then .nan else if 0 < a then .inf else .ninf)
    else .fin (a / b)

/-- The one transcendental case of `Math.pow` (positive base, non-integer
exponent) is kept abstract; theorems quantify over every such model, so in
particular they hold for the real power function. -/
structure PowModel where
  frac : ℚ → ℚ → ℚ

/-- A concrete (dummy) power model, used only to state closed
counterexamples whose truth does not depend on the model. -/
def powModelZero : PowModel := ⟨fun _ _ => 0⟩

/-- `Math.pow`, following the ECMAScript case analysis.  Integer exponents
are computed exactly on rationals; a negative base with a non-integer
exponent yields NaN; the positive-base non-integer-exponent case is
delegated to the abstract `PowModel`. -/
def jsPow (P : PowModel) (b e : JsNum) : JsNum :=
  match e with
  | .fin eq =>
    if eq = 0 then .fin 1
    else
      match b with
      | .nan => .nan
      | .inf => if 0 < eq then .inf else .fin 0
      | .ninf =>
        if 0 < eq then
          (if eq.den = 1 ∧ eq.num % 2 ≠ 0 then .ninf else .inf)
        else .fin 0
      | .fin q =>
        if eq.den = 1 then
          if 0 ≤ eq.num then .fin (q ^ eq.num.toNat)
          else if q = 0 then .inf
          else .fin (q ^ eq.num)
        else
          if q < 0 then .nan
          else if q = 0 then (if 0 < eq then .fin 0 else .inf)
          else .fin (P.frac q eq)
  | .nan => .nan
  | .inf =>
    match b with
    | .nan => .nan
    | .inf => .inf
    | .ninf => .inf
    | .fin q => if q = 1 ∨ q = -1 then .nan else if 1 < |q| then .inf else .fin 0
  | .ninf =>
    match b with
    | .nan => .nan
    | .inf => .fin 0
    | .ninf => .fin 0
    | .fin q => if q = 1 ∨ q = -1 then .nan else if 1 < |q| then .fin 0 else .inf

/-- Truncation toward zero of a rational, as JavaScript's ToIntegerOrInfinity
applies to a finite number. -/
def ratTrunc (x : ℚ) : Int := Int.tdiv x.num (x.den : Int)

/-! ## The calendar model -/

/-- A JS `Date` at UTC midnight: year, 0-based month (as `getUTCMonth`),
1-based day (as `getUTCDate`). -/
structure JsDate where
  year : Int
  month : Int
  day : Int
deriving DecidableEq

/-- Leap year test (proleptic Gregorian, as JS `Date` uses). -/
def isLeap (y : Int) : Bool := (y % 4 == 0 && y % 100 != 0) || y % 400 == 0

/-- Length of 0-based month `m` of year `y` (months outside 0..11 do not
occur on normalized dates). -/
def daysInMonth (y m : Int) : Int :=
  if m = 1 then (if isLeap y then 29 else 28)
  else if m = 3 ∨ m = 5 ∨ m = 8 ∨ m = 10 then 30
  else 31

/-- A normalized civil date: month in 0..11 and day in 1..daysInMonth. -/
def JsDate.ValidCivil (d : JsDate) : Prop :=
  0 ≤ d.month ∧ d.month ≤ 11 ∧ 1 ≤ d.day ∧ d.day ≤ daysInMonth d.year d.month

instance (d : JsDate) : Decidable d.ValidCivil := by
  unfold JsDate.ValidCivil; infer_instance

/-- Day-overflow normalization: move an out-of-range day component into the
neighbouring months, as JS timestamp arithmetic does.  Structural recursion
on a fuel that is always sufficient for the day values the embedded code can
produce (each step moves the day by at least 28 towards range). -/
def normDay : ℕ → Int → Int → Int → JsDate
  | 0, y, m, d => ⟨y, m, d⟩
  | fuel + 1, y, m, d =>
    if d < 1 then
      let y' := if m = 0 then y - 1 else y
      let m' := if m = 0 then 11 else m - 1
      normDay fuel y' m' (d + daysInMonth y' m')
    else if daysInMonth y m < d then
      let y' := if m = 11 then y + 1 else y
      let m' := if m = 11 then 0 else m + 1
      normDay fuel y' m' (d - daysInMonth y m)
    else ⟨y, m, d⟩

/-- Normalize a (year, month, day) triple with arbitrary integer month and
day components, as a JS timestamp constructed from them would: months are
folded into years by floor division, then the day overflows across months. -/
def mkNoRemap (y m d : Int) : JsDate :=
  normDay (d.natAbs + 2) (y + Int.ediv m 12) (Int.emod m 12) d

/-- `Date.UTC(year, month, day)` (as a UTC-midnight date): applies the
two-digit-year rule (0..99 becomes 1900+y) and then normalizes. -/
def dateUTC (y m d : Int) : JsDate :=
  mkNoRemap (if 0 ≤ y ∧ y ≤ 99 then 1900 + y else y) m d

/-- `date.setUTCFullYear(v)` (keeps month and day components, renormalizes;
no two-digit-year remapping). -/
def setUTCFullYear (dt : JsDate) (v : Int) : JsDate := mkNoRemap v dt.month dt.day

/-- `date.setUTCMonth(v)`. -/
def setUTCMonth (dt : JsDate) (v : Int) : JsDate := mkNoRemap dt.year v dt.day

/-- `date.setUTCDate(v)`. -/
def setUTCDate (dt : JsDate) (v : Int) : JsDate := mkNoRemap dt.year dt.month v

/-- Timestamp comparison `a < b` of two normalized UTC-midnight dates:
lexicographic on (year, month, day). -/
def dateLt (a b : JsDate) : Bool :=
  decide (a.year < b.year ∨ (a.year = b.year ∧
    (a.month < b.month ∨ (a.month = b.month ∧ a.day < b.day))))

/-- Timestamp comparison `a <= b` of two normalized UTC-midnight dates. -/
def dateLe (a b : JsDate) : Bool := !(dateLt b a)

/-- Month index `year*12 + month` of a date, the quantity advanced by one
month per loop step in `monthsBetweenDates`. -/
def monthIdx (d : JsDate) : Int := d.year * 12 + d.month

/-! ## Errors thrown by the finance module

One constructor per throw site family; the Spanish messages of the source
are kept as comments.  The first seven are the validation errors of
`simulateRetirementPlan`; the rest are the defensive checks of the helper
functions. -/

/-- The errors the finance module can throw. -/
inductive FinErr where
  | badBirthDate          -- TypeError 'birthDate debe ser una instancia válida de Date'
  | badAge                -- RangeError 'La edad de jubilación debe ser un número mayor a 0.'
  | badYear               -- RangeError 'El año de jubilación debe ser un entero válido...'
  | badRate               -- TypeError 'La rentabilidad anual debe ser un número.'
  | badContribs           -- TypeError 'Debe proporcionar al menos un escenario...'
  | badContrib (i : ℕ)    -- RangeError 'El escenario i debe ser un número mayor a 0.'
  | pastTarget            -- RangeError 'La fecha de jubilación debe ser futura.'
  | badDateArg            -- TypeError '... debe ser una instancia válida de Date' (helpers)
  | badYearsArg           -- TypeError 'years debe ser un número finito'
  | nonFiniteRateArg      -- TypeError 'annualRate debe ser un número finito'
  | badPaymentArg         -- TypeError 'payment debe ser un número finito'
  | badMonthlyRateArg     -- TypeError 'monthlyRate debe ser un número'
  | badPeriodsArg         -- TypeError 'periods debe ser un número finito'
deriving DecidableEq

/-! ## The calendar functions of `finance.js` -/

/-- Numeric value of a decimal digit character. -/
def digitVal (c : Char) : ℕ := c.toNat - 48

/-- The regex class `\d` (exactly the ASCII digits). -/
def isDigitChar (c : Char) : Bool := 48 ≤ c.toNat && c.toNat ≤ 57

/-- `parseISODate` of `finance.js`: strict `YYYY-MM-DD` pattern, then
`Date.UTC` construction, then the year/month/day round-trip check that
rejects calendar-impossible dates; returns `none` instead of throwing. -/
def parseISODate (s : String) : Option JsDate :=
  match s.data with
  | [y1, y2, y3, y4, h1, mo1, mo2, h2, d1, d2] =>
    if h1 = '-' ∧ h2 = '-' ∧
        isDigitChar y1 ∧ isDigitChar y2 ∧ isDigitChar y3 ∧ isDigitChar y4 ∧
        isDigitChar mo1 ∧ isDigitChar mo2 ∧ isDigitChar d1 ∧ isDigitChar d2 then
      let year : Int :=
        ((digitVal y1 * 1000 + digitVal y2 * 100 + digitVal y3 * 10 + digitVal y4 : ℕ) : Int)
      let month : Int := ((digitVal mo1 * 10 + digitVal mo2 : ℕ) : Int) - 1
      let day : Int := ((digitVal d1 * 10 + digitVal d2 : ℕ) : Int)
      let dt := dateUTC year month day
      if dt.year = year ∧ dt.month = month ∧ dt.day = day then some dt else none
    else none
  | _ => none

/-- One decimal digit as a character. -/
def digitChar : ℕ → Char
  | 0 => '0' | 1 => '1' | 2 => '2' | 3 => '3' | 4 => '4'
  | 5 => '5' | 6 => '6' | 7 => '7' | 8 => '8' | 9 => '9'
  | _ => '*'

/-- Four-digit zero-padded decimal rendering. -/
def pad4 (n : ℕ) : List Char :=
  [digitChar (n / 1000 % 10), digitChar (n / 100 % 10), digitChar (n / 10 % 10), digitChar (n % 10)]

/-- Two-digit zero-padded decimal rendering. -/
def pad2 (n : ℕ) : List Char := [digitChar (n / 10 % 10), digitChar (n % 10)]

/-- Formatting a date back to `YYYY-MM-DD`, as the consumers of the engine
do via `date.toISOString().slice(0, 10)` (faithful for years 0..9999, the
only range a ten-character ISO string can denote). -/
def formatISO (d : JsDate) : String :=
  ⟨pad4 d.year.toNat ++ '-' :: (pad2 (d.month + 1).toNat ++ '-' :: pad2 d.day.toNat)⟩

/-- `addYears` of `finance.js`: rebuild the date at UTC midnight via
`Date.UTC`, add the year count with `setUTCFullYear`, and if the month
changed (the day overflowed into the next month) step back to the last day
of the previous month with `setUTCDate(0)`. -/
def addYears (dt : Option JsDate) (years : JsNum) : Except FinErr JsDate :=
  match dt with
  | none => .error .badDateArg
  | some d =>
    match years with
    | .fin q =>
      let r0 := dateUTC d.year d.month d.day
      let r1 := setUTCFullYear r0 (ratTrunc ((r0.year : ℚ) + q))
      .ok (if r1.month ≠ d.month then setUTCDate r1 0 else r1)
    | _ => .error .badYearsArg

/-- The `while (cursor < endUTC)` loop of `monthsBetweenDates`: count one
month per step of `setUTCMonth(getUTCMonth() + 1)` until the cursor reaches
the end date.  Structural recursion on a fuel that the caller makes
sufficient (each step advances the cursor's month index by at least one). -/
def monthsLoop : ℕ → JsDate → JsDate → ℕ
  | 0, _, _ => 0
  | fuel + 1, cursor, e =>
    if dateLt cursor e then 1 + monthsLoop fuel (setUTCMonth cursor (cursor.month + 1)) e
    else 0

/-- `monthsBetweenDates` of `finance.js`: normalize both ends to UTC
midnight via `Date.UTC`, return 0 when `end <= start`, otherwise count
calendar-month steps until the cursor reaches the end date. -/
def monthsBetweenDates (s e : Option JsDate) : Except FinErr ℕ :=
  match s, e with
  | some s, some e =>
    let sU := dateUTC s.year s.month s.day
    let eU := dateUTC e.year e.month e.day
    if dateLe eU sU then .ok 0
    else .ok (monthsLoop ((monthIdx eU - monthIdx sU).toNat + 2) sU eU)
  | _, _ => .error .badDateArg

/-- The age computation of `calculateAgeInYears` on two valid dates. -/
def calcAgeCore (ref bd : JsDate) : Int :=
  ref.year - bd.year -
    (if ref.month < bd.month ∨ (ref.month = bd.month ∧ ref.day < bd.day) then 1 else 0)

/-- `calculateAgeInYears` of `finance.js` with its defensive date checks. -/
def calculateAgeInYears (ref bd : Option JsDate) : Except FinErr Int :=
  match ref, bd with
  | some r, some b => .ok (calcAgeCore r b)
  | _, _ => .error .badDateArg

/-- `retirementAgeFromYear` of `finance.js`. -/
def retirementAgeFromYear (bd : Option JsDate) (retirementYear : JsNum) :
    Except FinErr (Option Int) :=
  match bd with
  | none => .error .badDateArg
  | some b =>
    match retirementYear with
    | .fin q => .ok (some (ratTrunc (q - (b.year : ℚ))))
    | _ => .ok none

/-! ## The projection functions of `finance.js` -/

/-- `annualRateToMonthlyRate`: `Math.pow(1 + annualRate, 1/12) - 1`, after
rejecting non-finite rates. -/
def annualRateToMonthlyRate (P : PowModel) (annualRate : JsNum) : Except FinErr JsNum :=
  if !annualRate.isFiniteb then .error .nonFiniteRateArg
  else .ok (jsSub (jsPow P (jsAdd (.fin 1) annualRate) (.fin (1/12))) (.fin 1))

/-- `futureValueOfAnnuity`: defensive checks in source order, then the
`periods <= 0` early return, the zero-rate degeneration, and the compound
formula. -/
def futureValueOfAnnuity (P : PowModel) (payment monthlyRate periods : JsNum) :
    Except FinErr JsNum :=
  if !payment.isFiniteb then .error .badPaymentArg
  else if monthlyRate.isNaNb then .error .badMonthlyRateArg
  else if !periods.isFiniteb then .error .badPeriodsArg
  else if jsLe periods (.fin 0) then .ok (.fin 0)
  else if monthlyRate = .fin 0 then .ok (jsMul payment periods)
  else
    .ok (jsMul payment
      (jsDiv (jsSub (jsPow P (jsAdd (.fin 1) monthlyRate) periods) (.fin 1)) monthlyRate))

/-- One scenario row of a `RetirementPlan`. -/
structure ScenarioResult where
  id : ℕ
  monthlyContribution : JsNum
  futureValue : JsNum
  totalContributed : JsNum
  interestEarned : JsNum
deriving DecidableEq

/-- The advisory year mismatch record `{ expected, provided }`. -/
structure YearMismatch where
  expected : Int
  provided : ℚ
deriving DecidableEq

/-- The plan object returned by `simulateRetirementPlan`. -/
structure RetirementPlan where
  targetDate : JsDate
  expectedRetirementYear : Int
  monthsToRetirement : ℕ
  durationYears : ℕ
  durationMonths : ℕ
  scenarios : List ScenarioResult
  monthlyRate : JsNum
  annualReturnRate : JsNum
  yearMismatch : Option YearMismatch
  currentAge : Int
  retirementAge : JsNum
deriving DecidableEq

/-- The argument object of `simulateRetirementPlan`.  `none` components
model arguments that fail the corresponding `instanceof`/`Array.isArray`
checks; `retirementYear = none` models `null`/`undefined`. -/
structure SimInput where
  birthDate : Option JsDate
  retirementAge : JsNum
  retirementYear : Option JsNum
  annualReturnRate : JsNum
  monthlyContributions : Option (List JsNum)
  today : JsDate
deriving DecidableEq

/-- The `monthlyContributions.map` of the source: validate each entry in
order, throwing at the first non-finite or non-positive one (the error
carries the 1-based index used in the message). -/
def checkContribs : ℕ → List JsNum → Except FinErr (List JsNum)
  | _, [] => .ok []
  | i, v :: rest =>
    if !v.isFiniteb || jsLe v (.fin 0) then .error (.badContrib i)
    else
      match checkContribs (i + 1) rest with
      | .error e => .error e
      | .ok r => .ok (v :: r)

/-- The `contributions.map` of the source that builds one `ScenarioResult`
per contribution, calling `futureValueOfAnnuity` for each. -/
def buildScenarios (P : PowModel) (monthlyRate : JsNum) (months : ℕ) :
    ℕ → List JsNum → Except FinErr (List ScenarioResult)
  | _, [] => .ok []
  | i, c :: rest =>
    match futureValueOfAnnuity P c monthlyRate (.fin (months : ℚ)) with
    | .error e => .error e
    | .ok fv =>
      match buildScenarios P monthlyRate months (i + 1) rest with
      | .error e => .error e
      | .ok r =>
        .ok ({ id := i, monthlyContribution := c, futureValue := fv,
               totalContributed := jsMul c (.fin (months : ℚ)),
               interestEarned := jsSub fv (jsMul c (.fin (months : ℚ))) } :: r)

/-- `simulateRetirementPlan` of `finance.js`: the validation sequence in
source order (each check throws immediately), then target date, month
count, past-date check, advisory year mismatch, monthly rate, scenarios,
durations and current age. -/
def simulateRetirementPlan (P : PowModel) (inp : SimInput) : Except FinErr RetirementPlan :=
  match inp.birthDate with
  | none => .error .badBirthDate
  | some bd =>
    if !inp.retirementAge.isFiniteb || jsLe inp.retirementAge (.fin 0) then .error .badAge
    else if (match inp.retirementYear with
             | some ry => !ry.isIntegerB || jsLt ry (.fin (bd.year : ℚ))
             | none => false) then .error .badYear
    else if inp.annualReturnRate.isNaNb then .error .badRate
    else
      match inp.monthlyContributions with
      | none => .error .badContribs
      | some cs =>
        if cs.isEmpty then .error .badContribs
        else
          match checkContribs 1 cs with
          | .error e => .error e
          | .ok contributions =>
            match addYears (some bd) inp.retirementAge with
            | .error e => .error e
            | .ok targetDate =>
              match monthsBetweenDates (some inp.today) (some targetDate) with
              | .error e => .error e
              | .ok months =>
                if months = 0 then .error .pastTarget
                else
                  let expectedRetirementYear := targetDate.year
                  let yearMismatch : Option YearMismatch :=
                    match inp.retirementYear with
                    | some (.fin q) =>
                      if q ≠ (expectedRetirementYear : ℚ) then
                        some ⟨expectedRetirementYear, q⟩
                      else none
                    | some _ => none
                    | none => none
                  match annualRateToMonthlyRate P inp.annualReturnRate with
                  | .error e => .error e
                  | .ok monthlyRate =>
                    match buildScenarios P monthlyRate months 0 contributions with
                    | .error e => .error e
                    | .ok scenarios =>
                      match calculateAgeInYears (some inp.today) (some bd) with
                      | .error e => .error e
                      | .ok currentAge =>
                        .ok { targetDate := targetDate,
                              expectedRetirementYear := expectedRetirementYear,
                              monthsToRetirement := months,
                              durationYears := months / 12,
                              durationMonths := months % 12,
                              scenarios := scenarios,
                              monthlyRate := monthlyRate,
                              annualReturnRate := inp.annualReturnRate,
                              yearMismatch := yearMismatch,
                              currentAge := currentAge,
                              retirementAge := inp.retirementAge }

/-! ## The timeline builder

The `src` snapshot of the repository does not contain the timeline builder:
`App` reads `scenario.timeline` and `plan.initialSavings`, neither of which
`simulateRetirementPlan` in `src/utils/finance.js` produces. -/

/-- One point of the charting timeline. -/
structure TimelinePoint where
  monthIndex : ℕ
  balance : ℚ
  isRetirementMonth : Bool
deriving DecidableEq

/-- Modelled from the spec: the balance after `k` months of the timeline
recurrence, compounding monthly from `initialSavings` and adding the
scenario's contribution each month (§4.2 `buildTimeline`). -/
def timelineBalance (initialSavings contribution monthlyRate : ℚ) : ℕ → ℚ
  | 0 => initialSavings
  | k + 1 => timelineBalance initialSavings contribution monthlyRate k * (1 + monthlyRate)
      + contribution

/-- Modelled from the spec: `buildTimeline` is missing from the `src`
snapshot (only its caller `ScenarioChart` survives), so this follows §4.2:
iterate month 0 through `monthsToRetirement`, compounding the chosen
scenario's contribution monthly starting from `initialSavings`, tagging the
month equal to `monthsToRetirement` as `isRetirementMonth`. -/
def buildTimeline (initialSavings contribution monthlyRate : ℚ)
    (monthsToRetirement : ℕ) : List TimelinePoint :=
  (List.range (monthsToRetirement + 1)).map fun k =>
    { monthIndex := k,
      balance := timelineBalance initialSavings contribution monthlyRate k,
      isRetirementMonth := k == monthsToRetirement }

deriving instance DecidableEq for Except

/-- One step of the `monthsBetweenDates` loop body:
`cursor.setUTCMonth(cursor.getUTCMonth() + 1)`. -/
def stepMonth (c : JsDate) : JsDate := setUTCMonth c (c.month + 1)

/-- `n` steps of the `monthsBetweenDates` loop cursor. -/
def stepN : ℕ → JsDate → JsDate
  | 0, c => c
  | n + 1, c => stepN n (stepMonth c)

/-! ## Helper lemmas about the calendar model -/

lemma daysInMonth_ge (y m : Int) : 28 ≤ daysInMonth y m := by
  unfold daysInMonth; split_ifs <;> norm_num

lemma daysInMonth_le (y m : Int) : daysInMonth y m ≤ 31 := by
  unfold daysInMonth; split_ifs <;> norm_num

lemma daysInMonth_feb {y : Int} (h : isLeap y = false) : daysInMonth y 1 = 28 := by
  simp [daysInMonth, h]

lemma daysInMonth_feb_leap {y : Int} (h : isLeap y = true) : daysInMonth y 1 = 29 := by
  simp [daysInMonth, h]

lemma normDay_stop (fuel : ℕ) {y m d : Int} (h1 : 1 ≤ d) (h2 : d ≤ daysInMonth y m) :
    normDay fuel y m d = ⟨y, m, d⟩ := by
  cases fuel with
  | zero => rfl
  | succ n =>
    unfold normDay
    rw [if_neg (by omega), if_neg (by omega)]

lemma mkNoRemap_in_range {y m d : Int} (hm0 : 0 ≤ m) (hm1 : m ≤ 11)
    (hd1 : 1 ≤ d) (hd2 : d ≤ daysInMonth y m) : mkNoRemap y m d = ⟨y, m, d⟩ := by
  have he : Int.ediv m 12 = 0 := Int.ediv_eq_zero_of_lt hm0 (by omega)
  have hm : Int.emod m 12 = m := Int.emod_eq_of_lt hm0 (by omega)
  unfold mkNoRemap
  rw [he, hm, add_zero, normDay_stop _ hd1 hd2]

lemma dateUTC_of_valid {dt : JsDate} (hv : dt.ValidCivil) (hy : ¬(0 ≤ dt.year ∧ dt.year ≤ 99)) :
    dateUTC dt.year dt.month dt.day = dt := by
  obtain ⟨h1, h2, h3, h4⟩ := hv
  unfold dateUTC
  rw [if_neg hy, mkNoRemap_in_range h1 h2 h3 h4]

lemma ratTrunc_intCast (n : Int) : ratTrunc ((n : ℚ)) = n := by
  unfold ratTrunc
  rw [Rat.num_intCast, Rat.den_intCast]
  simp [Int.tdiv_one]

lemma normDay_step_up {fuel : ℕ} (hf : fuel ≠ 0) {y m d : Int}
    (h1 : 1 ≤ d) (h2 : daysInMonth y m < d) (hm : m ≠ 11) :
    normDay fuel y m d = normDay (fuel - 1) y (m + 1) (d - daysInMonth y m) := by
  cases fuel with
  | zero => exact absurd rfl hf
  | succ n =>
    simp only [Nat.add_sub_cancel]
    conv_lhs => rw [normDay]
    rw [if_neg (by omega), if_pos h2]
    simp [hm]

lemma normDay_step_up11 {fuel : ℕ} (hf : fuel ≠ 0) {y d : Int}
    (h1 : 1 ≤ d) (h2 : daysInMonth y 11 < d) :
    normDay fuel y 11 d = normDay (fuel - 1) (y + 1) 0 (d - daysInMonth y 11) := by
  cases fuel with
  | zero => exact absurd rfl hf
  | succ n =>
    simp only [Nat.add_sub_cancel]
    conv_lhs => rw [normDay]
    rw [if_neg (by omega), if_pos h2]
    simp

lemma normDay_step_down {fuel : ℕ} (hf : fuel ≠ 0) {y m d : Int}
    (h1 : d < 1) (hm : m ≠ 0) :
    normDay fuel y m d = normDay (fuel - 1) y (m - 1) (d + daysInMonth y (m - 1)) := by
  cases fuel with
  | zero => exact absurd rfl hf
  | succ n =>
    simp only [Nat.add_sub_cancel]
    conv_lhs => rw [normDay]
    rw [if_pos h1]
    simp [hm]

lemma stepMonth_spec {c : JsDate} (h : c.ValidCivil) :
    (stepMonth c).ValidCivil ∧
      monthIdx c + 1 ≤ monthIdx (stepMonth c) ∧ monthIdx (stepMonth c) ≤ monthIdx c + 2 := by
  obtain ⟨hm0, hm1, hd1, hd2⟩ := h
  unfold stepMonth setUTCMonth
  rcases eq_or_lt_of_le hm1 with h11 | h11
  · -- month 11 rolls over to January of the next year
    have he : Int.ediv (c.month + 1) 12 = 1 := by rw [h11]; rfl
    have hm : Int.emod (c.month + 1) 12 = 0 := by rw [h11]; rfl
    have hd31 : daysInMonth c.year c.month = 31 := by rw [h11]; simp [daysInMonth]
    have hd31' : daysInMonth (c.year + 1) 0 = 31 := by simp [daysInMonth]
    unfold mkNoRemap
    rw [he, hm, normDay_stop _ hd1 (by rw [hd31']; omega)]
    refine ⟨⟨by simp, by simp, by simpa using hd1, by simpa [hd31'] using by omega⟩, ?_, ?_⟩ <;>
      simp [monthIdx] <;> omega
  · -- months 0..10 advance within the year, possibly overflowing the day
    have hm11 : c.month + 1 ≤ 11 := by omega
    have he : Int.ediv (c.month + 1) 12 = 0 := Int.ediv_eq_zero_of_lt (by omega) (by omega)
    have hm : Int.emod (c.month + 1) 12 = c.month + 1 := Int.emod_eq_of_lt (by omega) (by omega)
    unfold mkNoRemap
    rw [he, hm, add_zero]
    by_cases hover : daysInMonth c.year (c.month + 1) < c.day
    · -- the day overflows by at most three days into the following month
      have hnext : c.month + 1 ≠ 11 := by
        intro h11'
        rw [h11'] at hover
        have := daysInMonth_le c.year c.month
        simp [daysInMonth] at hover
        omega
      rw [normDay_step_up (by positivity) hd1 hover hnext]
      have hge := daysInMonth_ge c.year (c.month + 1)
      have hge2 := daysInMonth_ge c.year (c.month + 1 + 1)
      have hle2 := daysInMonth_le c.year c.month
      rw [normDay_stop _ (by omega) (by omega)]
      refine ⟨⟨by simp; omega, by simp; omega, by simp; omega, by simp; omega⟩, ?_, ?_⟩ <;>
        simp [monthIdx] <;> omega
    · rw [normDay_stop _ hd1 (by omega)]
      refine ⟨⟨by simp; omega, by simp; omega, by simpa using hd1, by simpa using by omega⟩,
        ?_, ?_⟩ <;> simp [monthIdx] <;> omega

lemma stepN_spec {c : JsDate} (h : c.ValidCivil) (n : ℕ) :
    (stepN n c).ValidCivil ∧ monthIdx c + n ≤ monthIdx (stepN n c) := by
  induction n generalizing c with
  | zero => exact ⟨h, by simp [stepN]⟩
  | succ k ih =>
    obtain ⟨hv, hmi, _⟩ := stepMonth_spec h
    obtain ⟨hv', hmi'⟩ := ih hv
    refine ⟨by simpa [stepN] using hv', ?_⟩
    have : stepN (k + 1) c = stepN k (stepMonth c) := rfl
    rw [this]
    push_cast
    omega

lemma mi_le_of_dateLt {c e : JsDate} (hc : c.ValidCivil) (he : e.ValidCivil)
    (h : dateLt c e = true) : monthIdx c ≤ monthIdx e := by
  unfold dateLt at h
  rw [decide_eq_true_eq] at h
  obtain ⟨hc1, hc2, _, _⟩ := hc
  obtain ⟨he1, he2, _, _⟩ := he
  unfold monthIdx
  rcases h with h | ⟨h1, h | ⟨h2, _⟩⟩ <;> omega

lemma monthsLoop_spec (e : JsDate) : ∀ (fuel : ℕ) (c : JsDate),
    (∃ j, j ≤ fuel ∧ dateLt (stepN j c) e = false) →
    dateLt (stepN (monthsLoop fuel c e) c) e = false ∧
    ∀ k, k < monthsLoop fuel c e → dateLt (stepN k c) e = true := by
  intro fuel
  induction fuel with
  | zero =>
    intro c ⟨j, hj, hlt⟩
    have hj0 : j = 0 := Nat.le_zero.mp hj
    subst hj0
    exact ⟨hlt, by intro k hk; simp [monthsLoop] at hk⟩
  | succ n ih =>
    intro c ⟨j, hj, hlt⟩
    by_cases hc : dateLt c e = true
    · have hj0 : j ≠ 0 := by
        intro h0
        subst h0
        simp [stepN] at hlt
        exact absurd hc (by simp [hlt])
      obtain ⟨j', rfl⟩ : ∃ j', j = j' + 1 := ⟨j - 1, by omega⟩
      have hstep : stepN (j' + 1) c = stepN j' (stepMonth c) := rfl
      obtain ⟨h1, h2⟩ := ih (stepMonth c) ⟨j', by omega, by rw [← hstep]; exact hlt⟩
      have hloop : monthsLoop (n + 1) c e = 1 + monthsLoop n (stepMonth c) e := by
        conv_lhs => rw [monthsLoop]
        rw [if_pos hc]
        rfl
      rw [hloop]
      constructor
      · have : stepN (1 + monthsLoop n (stepMonth c) e) c
            = stepN (monthsLoop n (stepMonth c) e) (stepMonth c) := by
          rw [Nat.add_comm]
          rfl
        rw [this]
        exact h1
      · intro k hk
        cases k with
        | zero => simpa [stepN] using hc
        | succ k' =>
          have : stepN (k' + 1) c = stepN k' (stepMonth c) := rfl
          rw [this]
          exact h2 k' (by omega)
    · have hloop : monthsLoop (n + 1) c e = 0 := by
        conv_lhs => rw [monthsLoop]
        rw [if_neg hc]
      rw [hloop]
      exact ⟨by simpa [stepN] using hc, by omega⟩

lemma monthsLoop_fuel_ok {s e : JsDate} (hs : s.ValidCivil) (he : e.ValidCivil) :
    ∃ j, j ≤ (monthIdx e - monthIdx s).toNat + 2 ∧ dateLt (stepN j s) e = false := by
  set j := (monthIdx e - monthIdx s).toNat + 1 with hj
  refine ⟨j, by omega, ?_⟩
  obtain ⟨hv, hmi⟩ := stepN_spec hs j
  by_contra hlt
  rw [Bool.not_eq_false] at hlt
  have hle := mi_le_of_dateLt hv he hlt
  omega

/-- The whole-month count of `monthsBetweenDates` on already-normalized
dates (years at or above 100, so the two-digit-year rule of `Date.UTC` does
not interfere): 0 when `end <= start`, otherwise the least `n` such that
stepping the start date forward `n` calendar months reaches or passes the
end date. -/
lemma monthsBetween_spec {s e : JsDate} (hs : s.ValidCivil) (he : e.ValidCivil)
    (hys : 100 ≤ s.year) (hye : 100 ≤ e.year) :
    (dateLe e s = true → monthsBetweenDates (some s) (some e) = .ok 0) ∧
    (dateLe e s = false →
      ∃ n, monthsBetweenDates (some s) (some e) = .ok n ∧ 0 < n ∧
        dateLt (stepN n s) e = false ∧ ∀ k, k < n → dateLt (stepN k s) e = true) := by
  have hs' : dateUTC s.year s.month s.day = s := dateUTC_of_valid hs (by omega)
  have he' : dateUTC e.year e.month e.day = e := dateUTC_of_valid he (by omega)
  have hred : monthsBetweenDates (some s) (some e) =
      (if dateLe (dateUTC e.year e.month e.day) (dateUTC s.year s.month s.day) = true then .ok 0
       else .ok (monthsLoop
        ((monthIdx (dateUTC e.year e.month e.day) - monthIdx (dateUTC s.year s.month s.day)).toNat + 2)
        (dateUTC s.year s.month s.day) (dateUTC e.year e.month e.day))) := rfl
  constructor
  · intro hle
    rw [hred, hs', he', if_pos hle]
  · intro hlt
    obtain ⟨h1, h2⟩ := monthsLoop_spec e ((monthIdx e - monthIdx s).toNat + 2) s
      (monthsLoop_fuel_ok hs he)
    refine ⟨monthsLoop ((monthIdx e - monthIdx s).toNat + 2) s e, ?_, ?_, h1, h2⟩
    · rw [hred, hs', he', if_neg (by simp [hlt])]
    · rcases Nat.eq_zero_or_pos (monthsLoop ((monthIdx e - monthIdx s).toNat + 2) s e) with h0 | h0
      · rw [h0] at h1
        have : dateLt s e = true := by
          unfold dateLe at hlt
          simpa using hlt
        simp [stepN] at h1
        rw [this] at h1
        exact absurd h1 (by simp)
      · exact h0

lemma oneTwelfth_den : ((1 : ℚ)/12).den = 12 := by with_unfolding_all decide

lemma oneTwelfth_ne : ((1 : ℚ)/12) ≠ 0 := by norm_num

lemma checkContribs_singleton {i : ℕ} {c : ℚ} (hc : 0 < c) :
    checkContribs i [.fin c] = .ok [.fin c] := by
  unfold checkContribs
  rw [if_neg (by simp [jsLe, JsNum.isFiniteb, hc.not_le])]
  rfl

/-- For a finite annual rate the monthly-rate conversion never throws; the
result is NaN exactly when `1 + rate` is negative (negative base to the
fractional power), and finite otherwise. -/
lemma annualRate_fin_ok (P : PowModel) (r : ℚ) :
    annualRateToMonthlyRate P (.fin r) =
      .ok (if 1 + r < 0 then .nan
           else if 1 + r = 0 then .fin (0 - 1)
           else .fin (P.frac (1 + r) (1/12) - 1)) := by
  unfold annualRateToMonthlyRate
  rw [if_neg (by simp [JsNum.isFiniteb])]
  have hadd : jsAdd (.fin 1) (.fin r) = .fin (1 + r) := rfl
  rw [hadd]
  simp only [jsPow]
  rw [if_neg oneTwelfth_ne, if_neg (by rw [oneTwelfth_den]; norm_num)]
  by_cases hneg : 1 + r < 0
  · rw [if_pos hneg, if_pos hneg]
    rfl
  · rw [if_neg hneg, if_neg hneg]
    by_cases h0 : 1 + r = 0
    · rw [if_pos h0, if_pos (by norm_num : (0:ℚ) < 1/12), if_pos h0]
      simp [jsSub, jsAdd, jsNeg]
    · rw [if_neg h0, if_neg h0]
      simp [jsSub, jsAdd, jsNeg, sub_eq_add_neg]

/-- With a finite payment, a finite monthly rate and a positive integral
number of periods, `futureValueOfAnnuity` returns a finite value: the
zero-rate product or the compound formula (an exact rational power, since
the exponent is a non-negative integer). -/
lemma fva_fin_ok (P : PowModel) (c mr : ℚ) (m : ℕ) (hm : 1 ≤ m) :
    futureValueOfAnnuity P (.fin c) (.fin mr) (.fin (m : ℚ)) =
      .ok (.fin (if mr = 0 then c * m
                 else c * (((1 + mr) ^ m - 1) / mr))) := by
  unfold futureValueOfAnnuity
  rw [if_neg (by simp [JsNum.isFiniteb]), if_neg (by simp [JsNum.isNaNb]),
    if_neg (by simp [JsNum.isFiniteb])]
  have hpos : ¬ ((m : ℚ) ≤ 0) := by
    push_neg
    exact_mod_cast hm
  rw [if_neg (by simp [jsLe, hpos])]
  by_cases h0 : mr = 0
  · rw [if_pos (by rw [h0]), if_pos h0]
    rfl
  · rw [if_neg (by simp [h0]), if_neg h0]
    have hadd : jsAdd (.fin 1) (.fin mr) = .fin (1 + mr) := rfl
    rw [hadd]
    simp only [jsPow]
    rw [if_neg (by exact_mod_cast Nat.one_le_iff_ne_zero.mp hm)]
    rw [if_pos (by simp [Rat.den_natCast])]
    rw [if_pos (by simp [Rat.num_natCast])]
    have hnum : ((m : ℚ)).num.toNat = m := by simp [Rat.num_natCast]
    rw [hnum]
    simp [jsSub, jsAdd, jsNeg, jsDiv, jsMul, h0, sub_eq_add_neg]

/-- The scenario list built for a single valid contribution. -/
lemma buildScenarios_singleton (P : PowModel) (mr c : ℚ) (m : ℕ) (hm : 1 ≤ m) :
    buildScenarios P (.fin mr) m 0 [.fin c] =
      .ok [{ id := 0, monthlyContribution := .fin c,
             futureValue := .fin (if mr = 0 then c * m
                 else c * (((1 + mr) ^ m - 1) / mr)),
             totalContributed := jsMul (.fin c) (.fin (m : ℚ)),
             interestEarned := jsSub (.fin (if mr = 0 then c * m
                 else c * (((1 + mr) ^ m - 1) / mr))) (jsMul (.fin c) (.fin (m : ℚ))) }] := by
  unfold buildScenarios
  rw [fva_fin_ok P c mr m hm]
  rfl

/-- Walking `simulateRetirementPlan` past a fully valid prefix: with a valid
birth date, a positive finite age, an absent-or-valid retirement year, a
non-NaN rate and one positive contribution, the simulation reduces to the
past-target-date guard followed by the projection computation. -/
lemma simulate_reduce (P : PowModel) (bd today td : JsDate) (a c : ℚ) (ha : 0 < a)
    (hc : 0 < c) (ry : Option JsNum)
    (hry : ry = none ∨ ∃ qy : ℚ, ry = some (.fin qy) ∧ qy.den = 1 ∧ (bd.year : ℚ) ≤ qy)
    (rate : JsNum) (hrate : rate.isNaNb = false)
    (htd : addYears (some bd) (.fin a) = .ok td)
    (m : ℕ) (hm : monthsBetweenDates (some today) (some td) = .ok m) :
    simulateRetirementPlan P ⟨some bd, .fin a, ry, rate, some [.fin c], today⟩ =
      (if m = 0 then .error .pastTarget
       else
        match annualRateToMonthlyRate P rate with
        | .error e => .error e
        | .ok monthlyRate =>
          match buildScenarios P monthlyRate m 0 [.fin c] with
          | .error e => .error e
          | .ok scenarios =>
            .ok { targetDate := td, expectedRetirementYear := td.year,
                  monthsToRetirement := m, durationYears := m / 12, durationMonths := m % 12,
                  scenarios := scenarios, monthlyRate := monthlyRate,
                  annualReturnRate := rate,
                  yearMismatch := (match ry with
                    | some (.fin q) => if q ≠ (td.year : ℚ) then some ⟨td.year, q⟩ else none
                    | some _ => none
                    | none => none),
                  currentAge := calcAgeCore today bd,
                  retirementAge := .fin a }) := by
  rcases hry with rfl | ⟨qy, rfl, hden, hge⟩
  · unfold simulateRetirementPlan
    simp only
    rw [if_neg (by simp [jsLe, JsNum.isFiniteb, ha.not_le])]
    rw [if_neg (by simp)]
    rw [if_neg (by simp [hrate])]
    rw [if_neg (by simp [List.isEmpty])]
    rw [checkContribs_singleton hc, htd]
    simp only [hm, calculateAgeInYears]
  · unfold simulateRetirementPlan
    simp only
    rw [if_neg (by simp [jsLe, JsNum.isFiniteb, ha.not_le])]
    rw [if_neg (by simp [JsNum.isIntegerB, jsLt, hden, hge.not_lt])]
    rw [if_neg (by simp [hrate])]
    rw [if_neg (by simp [List.isEmpty])]
    rw [checkContribs_singleton hc, htd]
    simp only [hm, calculateAgeInYears]

/-- Whatever the input, a successful simulation carries a strictly positive
month count: the `monthsToRetirement <= 0` guard throws before the plan is
assembled. -/
lemma simulate_ok_months_pos (P : PowModel) (inp : SimInput) (plan : RetirementPlan)
    (h : simulateRetirementPlan P inp = .ok plan) : 0 < plan.monthsToRetirement := by
  unfold simulateRetirementPlan at h
  rcases hbd : inp.birthDate with _ | bd <;> rw [hbd] at h
  · simp at h
  · repeat' split at h
    all_goals try exact Except.noConfusion h
    all_goals simp only [] at h
    all_goals rw [Except.ok.injEq] at h
    all_goals subst h
    all_goals simp
    all_goals omega

/-- The retirement-age validation throws `badAge` as soon as the age is
non-finite or non-positive, whatever the state of the later fields. -/
lemma simulate_invalid_age (P : PowModel) (inp : SimInput) (bd : JsDate)
    (hbd : inp.birthDate = some bd)
    (h : inp.retirementAge.isFiniteb = false ∨ jsLe inp.retirementAge (.fin 0) = true) :
    simulateRetirementPlan P inp = .error .badAge := by
  unfold simulateRetirementPlan
  rw [hbd]
  rcases h with h | h <;> simp [h]

/-- A NaN annual rate is rejected by the validation sequence (with the
`badRate` kind) once the earlier birth-date, age and year checks pass,
before the contributions are even examined. -/
lemma simulate_nan_rate (P : PowModel) (bd today : JsDate) (a : ℚ) (ha : 0 < a)
    (ry : Option JsNum)
    (hry : ry = none ∨ ∃ qy : ℚ, ry = some (.fin qy) ∧ qy.den = 1 ∧ (bd.year : ℚ) ≤ qy)
    (cs : Option (List JsNum)) :
    simulateRetirementPlan P ⟨some bd, .fin a, ry, .nan, cs, today⟩ = .error .badRate := by
  rcases hry with rfl | ⟨qy, rfl, hden, hge⟩
  · unfold simulateRetirementPlan
    simp only
    rw [if_neg (by simp [jsLe, JsNum.isFiniteb, ha.not_le])]
    rfl
  · unfold simulateRetirementPlan
    simp only
    rw [if_neg (by simp [jsLe, JsNum.isFiniteb, ha.not_le])]
    rw [if_neg (by simp [JsNum.isIntegerB, jsLt, hden, hge.not_lt])]
    rfl

/-! ## Claim C8: `futureValueOfAnnuity` degenerate policies -/

/-- C8 counterexample: the claim asserts `futureValueOfAnnuity(p, r, n)`
returns 0 whenever `n <= 0` "regardless of the other inputs rather than an
error", but a non-finite payment is rejected with a TypeError before the
`periods <= 0` early return is ever reached. -/
theorem claim8_counterexample :
    futureValueOfAnnuity powModelZero .inf (.fin 0) (.fin 0) = .error .badPaymentArg ∧
    (Except.error FinErr.badPaymentArg ≠ (.ok (.fin 0) : Except FinErr JsNum)) := by
  exact ⟨by with_unfolding_all decide, by simp⟩

/-- C8 (corrected): for every finite payment `p` the zero-rate annuity
degenerates to `p * n` when `n > 0`, and returns 0 whenever `n <= 0` —
provided the payment is finite and the rate is not NaN, since those
defensive checks run before the `periods <= 0` policy. -/
theorem claim8_fva_policies (P : PowModel) (p n : ℚ) (r : JsNum) :
    (0 < n → futureValueOfAnnuity P (.fin p) (.fin 0) (.fin n) = .ok (.fin (p * n))) ∧
    (n ≤ 0 → r.isNaNb = false →
      futureValueOfAnnuity P (.fin p) r (.fin n) = .ok (.fin 0)) := by
  constructor
  · intro hn
    unfold futureValueOfAnnuity
    rw [if_neg (by simp [JsNum.isFiniteb]), if_neg (by simp [JsNum.isNaNb]),
      if_neg (by simp [JsNum.isFiniteb]), if_neg (by simp [jsLe, hn.not_le]),
      if_pos rfl]
    rfl
  · intro hn hr
    unfold futureValueOfAnnuity
    rw [if_neg (by simp [JsNum.isFiniteb]), if_neg (by simp [hr]),
      if_neg (by simp [JsNum.isFiniteb]), if_pos (by simp [jsLe, hn])]

/-- C8 witness: `futureValueOfAnnuity(500, 0, 120) = 60000`, and with a
finite payment the `n <= 0` policy does return 0 even for an infinite
rate. -/
theorem claim8_witness :
    futureValueOfAnnuity powModelZero (.fin 500) (.fin 0) (.fin 120) = .ok (.fin 60000) ∧
    futureValueOfAnnuity powModelZero (.fin 7) .inf (.fin (-3)) = .ok (.fin 0) := by
  constructor
  · have h := (claim8_fva_policies powModelZero 500 120 .inf).1 (by norm_num)
    rw [h]
    norm_num
  · exact (claim8_fva_policies powModelZero 7 (-3) .inf).2 (by norm_num) rfl

/-! ## Claim C3: the timeline builder -/

/-- C3 (confirmed, modelled from the spec): `buildTimeline` produces one
point per month index 0..monthsToRetirement, the balances follow the
monthly compounding recurrence from `initialSavings`, and a point is tagged
`isRetirementMonth` exactly when its index equals `monthsToRetirement`. -/
theorem claim3_buildTimeline (init c r : ℚ) (m : ℕ) :
    (buildTimeline init c r m).length = m + 1 ∧
    (∀ k (hk : k < (buildTimeline init c r m).length),
      (buildTimeline init c r m).get ⟨k, hk⟩ =
        { monthIndex := k, balance := timelineBalance init c r k,
          isRetirementMonth := k == m }) ∧
    timelineBalance init c r 0 = init ∧
    (∀ k, timelineBalance init c r (k + 1) = timelineBalance init c r k * (1 + r) + c) ∧
    (∀ k (hk : k < (buildTimeline init c r m).length),
      (((buildTimeline init c r m).get ⟨k, hk⟩).isRetirementMonth = true ↔ k = m)) := by
  have hlen : (buildTimeline init c r m).length = m + 1 := by
    simp [buildTimeline]
  have hget : ∀ k (hk : k < (buildTimeline init c r m).length),
      (buildTimeline init c r m).get ⟨k, hk⟩ =
        { monthIndex := k, balance := timelineBalance init c r k,
          isRetirementMonth := k == m } := by
    intro k hk
    simp [buildTimeline]
  refine ⟨hlen, hget, rfl, fun k => rfl, ?_⟩
  intro k hk
  rw [hget k hk]
  simp

set_option maxRecDepth 4000 in
/-- C3 witness: a four-point timeline for three months at zero rate. -/
theorem claim3_witness :
    (buildTimeline 1000 200 0 3).length = 4 ∧
    (buildTimeline 1000 200 0 3).get ⟨3, by norm_num [buildTimeline]⟩ =
      { monthIndex := 3, balance := 1600, isRetirementMonth := true } := by
  have h := claim3_buildTimeline 1000 200 0 3
  refine ⟨h.1, ?_⟩
  rw [h.2.1 3 (by norm_num [buildTimeline])]
  with_unfolding_all decide

/-! ## Claim C1: validation error reporting of `simulateRetirementPlan` -/

set_option maxRecDepth 4000 in
/-- C1 counterexample: with two invalid fields (non-positive age and NaN
rate) the simulation throws only the age error; the rate problem is not
reported.  Fixing the age surfaces the rate error instead, so the errors
are reported one at a time in validation order, not as a complete list. -/
theorem claim1_counterexample :
    simulateRetirementPlan powModelZero
      ⟨some ⟨2000, 0, 1⟩, .fin 0, none, .nan, some [.fin 500], ⟨2025, 10, 15⟩⟩ =
      .error .badAge ∧
    simulateRetirementPlan powModelZero
      ⟨some ⟨2000, 0, 1⟩, .fin 26, none, .nan, some [.fin 500], ⟨2025, 10, 15⟩⟩ =
      .error .badRate ∧
    FinErr.badAge ≠ FinErr.badRate := by
  refine ⟨?_, ?_, by simp⟩ <;> with_unfolding_all decide

/-- C1 (corrected): `simulateRetirementPlan` validates eagerly before any
projection work, but it throws at the FIRST invalid field in source order
and reports only that error — with an invalid age the NaN-rate problem is
never mentioned.  (The complete-list behaviour the spec describes lives in
the UI's `handleSubmit`, which accumulates messages for all fields, not in
the engine.) -/
theorem claim1_first_error_only (P : PowModel) (inp : SimInput) (bd : JsDate)
    (hbd : inp.birthDate = some bd)
    (hage : inp.retirementAge.isFiniteb = false ∨ jsLe inp.retirementAge (.fin 0) = true)
    (hrate : inp.annualReturnRate.isNaNb = true) :
    simulateRetirementPlan P inp = .error .badAge ∧
    simulateRetirementPlan P inp ≠ .error .badRate := by
  have h := simulate_invalid_age P inp bd hbd hage
  exact ⟨h, by rw [h]; simp⟩

set_option maxRecDepth 4000 in
/-- C1 witness: the first-error-only theorem applied to an input whose age
and rate are both invalid. -/
theorem claim1_witness :
    simulateRetirementPlan powModelZero
      ⟨some ⟨2000, 0, 1⟩, .fin 0, none, .nan, some [.fin 500], ⟨2025, 10, 15⟩⟩ =
      .error .badAge ∧
    simulateRetirementPlan powModelZero
      ⟨some ⟨2000, 0, 1⟩, .fin 0, none, .nan, some [.fin 500], ⟨2025, 10, 15⟩⟩ ≠
      .error .badRate :=
  claim1_first_error_only powModelZero
    ⟨some ⟨2000, 0, 1⟩, .fin 0, none, .nan, some [.fin 500], ⟨2025, 10, 15⟩⟩
    ⟨2000, 0, 1⟩ rfl (Or.inr (by with_unfolding_all decide)) rfl

/-! ## Claim C2: `monthsBetweenDates` -/

/-- C2 counterexample: from Jan 15 to Jan 20 of the same year no whole
calendar month elapses, yet `monthsBetweenDates` returns 1 — the partial
final month IS counted (the stepping loop rounds up), contradicting the
claim that a partial final month is not counted. -/
theorem claim2_counterexample :
    monthsBetweenDates (some ⟨2024, 0, 15⟩) (some ⟨2024, 0, 20⟩) = .ok 1 ∧
    (Except.ok 1 : Except FinErr ℕ) ≠ .ok 0 := by
  exact ⟨by with_unfolding_all decide, by simp⟩

/-- C2 (corrected): on normalized dates with years at or above 100,
`monthsBetweenDates` returns 0 exactly when `end <= start`, and otherwise
counts by calendar-month stepping ROUNDED UP: the result is the least `n`
such that stepping `start` forward `n` months reaches or passes `end`, so a
partial final month is counted rather than discarded. -/
theorem claim2_months_stepping (s e : JsDate) (hs : s.ValidCivil) (he : e.ValidCivil)
    (hys : 100 ≤ s.year) (hye : 100 ≤ e.year) :
    (dateLe e s = true → monthsBetweenDates (some s) (some e) = .ok 0) ∧
    (dateLe e s = false →
      ∃ n, monthsBetweenDates (some s) (some e) = .ok n ∧ 0 < n ∧
        dateLt (stepN n s) e = false ∧ ∀ k, k < n → dateLt (stepN k s) e = true) :=
  monthsBetween_spec hs he hys hye

/-- C2 witness: the stepping characterization applied to equal dates and to
a two-months-and-five-days span. -/
theorem claim2_witness :
    monthsBetweenDates (some ⟨2024, 0, 15⟩) (some ⟨2024, 0, 15⟩) = .ok 0 ∧
    (∃ n, monthsBetweenDates (some ⟨2024, 0, 15⟩) (some ⟨2024, 2, 20⟩) = .ok n ∧ 0 < n ∧
      dateLt (stepN n ⟨2024, 0, 15⟩) ⟨2024, 2, 20⟩ = false ∧
      ∀ k, k < n → dateLt (stepN k ⟨2024, 0, 15⟩) ⟨2024, 2, 20⟩ = true) := by
  constructor
  · exact (claim2_months_stepping ⟨2024, 0, 15⟩ ⟨2024, 0, 15⟩ (by decide) (by decide)
      (by decide) (by decide)).1 (by decide)
  · exact (claim2_months_stepping ⟨2024, 0, 15⟩ ⟨2024, 2, 20⟩ (by decide) (by decide)
      (by decide) (by decide)).2 (by decide)

/-! ## Claim C4: annual-rate rejection -/

set_option maxRecDepth 4000 in
/-- C4 counterexample: an annual rate of -2 (below the -100% floor) passes
the eager validation (which only rejects NaN), reaches the projection —
`annualRateToMonthlyRate` yields NaN for the negative base — and the run
fails only inside `futureValueOfAnnuity` with the monthly-rate TypeError,
not with the validation's `badRate` kind. -/
theorem claim4_counterexample :
    simulateRetirementPlan powModelZero
      ⟨some ⟨2000, 0, 1⟩, .fin 26, none, .fin (-2), some [.fin 500], ⟨2025, 10, 15⟩⟩ =
      .error .badMonthlyRateArg ∧
    FinErr.badMonthlyRateArg ≠ FinErr.badRate ∧
    annualRateToMonthlyRate powModelZero (.fin (-2)) = .ok .nan := by
  refine ⟨?_, by simp, ?_⟩ <;> with_unfolding_all decide

/-- C4 (corrected): the eager validation rejects exactly the NaN rates with
the `badRate` kind; a finite rate below -1 passes validation, reaches the
projection (target date and month count are already computed) and is
rejected only inside the first `futureValueOfAnnuity` call, because the
monthly rate `pow(1 + r, 1/12) - 1` is NaN for a negative base. -/
theorem claim4_rate_rejection (P : PowModel) (bd today td : JsDate) (a c r : ℚ)
    (ha : 0 < a) (hc : 0 < c)
    (htd : addYears (some bd) (.fin a) = .ok td)
    (m : ℕ) (hm : monthsBetweenDates (some today) (some td) = .ok (m + 1)) :
    simulateRetirementPlan P ⟨some bd, .fin a, none, .nan, some [.fin c], today⟩ =
      .error .badRate ∧
    (r < -1 →
      simulateRetirementPlan P ⟨some bd, .fin a, none, .fin r, some [.fin c], today⟩ =
        .error .badMonthlyRateArg) := by
  constructor
  · exact simulate_nan_rate P bd today a ha none (Or.inl rfl) _
  · intro hr
    rw [simulate_reduce P bd today td a c ha hc none (Or.inl rfl) (.fin r) rfl htd (m + 1) hm]
    rw [if_neg (by omega), annualRate_fin_ok P r, if_pos (by linarith)]
    have hsc : buildScenarios P .nan (m + 1) 0 [.fin c] = .error .badMonthlyRateArg := by
      unfold buildScenarios futureValueOfAnnuity
      rw [if_neg (by simp [JsNum.isFiniteb]), if_pos (by simp [JsNum.isNaNb])]
    simp only [hsc]

set_option maxRecDepth 4000 in
/-- C4 witness: the rejection theorem applied at a rate of -2 with an
otherwise valid input. -/
theorem claim4_witness :
    simulateRetirementPlan powModelZero
      ⟨some ⟨2000, 0, 1⟩, .fin 26, none, .nan, some [.fin 500], ⟨2025, 10, 15⟩⟩ =
      .error .badRate ∧
    ((-2 : ℚ) < -1 →
      simulateRetirementPlan powModelZero
        ⟨some ⟨2000, 0, 1⟩, .fin 26, none, .fin (-2), some [.fin 500], ⟨2025, 10, 15⟩⟩ =
        .error .badMonthlyRateArg) :=
  claim4_rate_rejection powModelZero ⟨2000, 0, 1⟩ ⟨2025, 10, 15⟩ ⟨2026, 0, 1⟩ 26 500 (-2)
    (by norm_num) (by norm_num) (by with_unfolding_all decide) 1
    (by with_unfolding_all decide)

/-! ## Claim C5: retirement-age validation -/

set_option maxRecDepth 4000 in
/-- C5 counterexample: the non-integer age 26.5 passes validation and the
simulation succeeds (no integrality check exists in
`simulateRetirementPlan`), and an integer age at or below the current age
fails with `pastTarget`, not with the age-validation kind. -/
theorem claim5_counterexample :
    (simulateRetirementPlan powModelZero
      ⟨some ⟨2000, 0, 1⟩, .fin (53/2), none, .fin 0, some [.fin 500], ⟨2025, 0, 1⟩⟩).isOk
      = true ∧
    (JsNum.fin (53/2)).isIntegerB = false ∧
    simulateRetirementPlan powModelZero
      ⟨some ⟨2000, 0, 1⟩, .fin 10, none, .fin 0, some [.fin 500], ⟨2025, 0, 1⟩⟩ =
      .error .pastTarget ∧
    FinErr.pastTarget ≠ FinErr.badAge := by
  refine ⟨?_, ?_, ?_, by simp⟩ <;> with_unfolding_all decide

/-- C5 (corrected): `simulateRetirementPlan` rejects with the age kind
exactly the non-finite or non-positive retirement ages; every positive
finite age — integer or not — passes the age validation, and an
otherwise-valid input with such an age and a future target date succeeds.
Integrality and the comparison against the current age are enforced only by
the UI layer; an age at or below the current age surfaces as
`pastTarget`. -/
theorem claim5_age_validation (P : PowModel) (inp : SimInput) (bd today td : JsDate)
    (a c r : ℚ) (m : ℕ) :
    (inp.birthDate = some bd →
      (inp.retirementAge.isFiniteb = false ∨ jsLe inp.retirementAge (.fin 0) = true) →
      simulateRetirementPlan P inp = .error .badAge) ∧
    (0 < a → 0 < c → -1 ≤ r →
      addYears (some bd) (.fin a) = .ok td →
      monthsBetweenDates (some today) (some td) = .ok (m + 1) →
      (simulateRetirementPlan P ⟨some bd, .fin a, none, .fin r, some [.fin c], today⟩).isOk
        = true) := by
  constructor
  · intro hbd hage
    exact simulate_invalid_age P inp bd hbd hage
  · intro ha hc hr htd hm
    rw [simulate_reduce P bd today td a c ha hc none (Or.inl rfl) (.fin r) rfl htd (m + 1) hm]
    rw [if_neg (by omega), annualRate_fin_ok P r, if_neg (by linarith)]
    by_cases h0 : 1 + r = 0
    · rw [if_pos h0]
      simp only [buildScenarios_singleton P (0 - 1) c (m + 1) (by omega)]
      rfl
    · rw [if_neg h0]
      simp only [buildScenarios_singleton P (P.frac (1 + r) (1/12) - 1) c (m + 1) (by omega)]
      rfl

set_option maxRecDepth 4000 in
/-- C5 witness: the age-validation theorem applied to an input with age 0
(rejected) and to an otherwise-valid input with the non-integer age 26.5
(accepted). -/
theorem claim5_witness :
    simulateRetirementPlan powModelZero
      ⟨some ⟨2000, 0, 1⟩, .fin 0, none, .fin 0, some [.fin 500], ⟨2025, 0, 1⟩⟩ =
      .error .badAge ∧
    (simulateRetirementPlan powModelZero
      ⟨some ⟨2000, 0, 1⟩, .fin (53/2), none, .fin 0, some [.fin 500], ⟨2025, 0, 1⟩⟩).isOk
      = true := by
  have h := claim5_age_validation powModelZero
    ⟨some ⟨2000, 0, 1⟩, .fin 0, none, .fin 0, some [.fin 500], ⟨2025, 0, 1⟩⟩
    ⟨2000, 0, 1⟩ ⟨2025, 0, 1⟩ ⟨2026, 0, 1⟩ (53/2) 500 0 11
  refine ⟨h.1 rfl (Or.inr (by with_unfolding_all decide)), ?_⟩
  exact h.2 (by norm_num) (by norm_num) (by norm_num)
    (by with_unfolding_all decide) (by with_unfolding_all decide)

/-! ## Claim C7: past target dates -/

/-- C7 (confirmed): for an otherwise-valid input whose computed target date
is at or before the reference date — including exact equality —
`simulateRetirementPlan` fails with `pastTarget`; and every successful
simulation, whatever the input, carries a strictly positive
`monthsToRetirement`. -/
theorem claim7_past_target (P : PowModel) (bd today td : JsDate) (a c r : ℚ)
    (ha : 0 < a) (hc : 0 < c)
    (htd : addYears (some bd) (.fin a) = .ok td)
    (hvt : td.ValidCivil) (hvn : today.ValidCivil)
    (hyt : 100 ≤ td.year) (hyn : 100 ≤ today.year) :
    (dateLe td today = true →
      simulateRetirementPlan P ⟨some bd, .fin a, none, .fin r, some [.fin c], today⟩ =
        .error .pastTarget) ∧
    (∀ (inp : SimInput) (plan : RetirementPlan),
      simulateRetirementPlan P inp = .ok plan → 0 < plan.monthsToRetirement) := by
  constructor
  · intro hle
    have hm : monthsBetweenDates (some today) (some td) = .ok 0 :=
      (monthsBetween_spec hvn hvt hyn hyt).1 hle
    rw [simulate_reduce P bd today td a c ha hc none (Or.inl rfl) (.fin r) rfl htd 0 hm]
    simp
  · intro inp plan h
    exact simulate_ok_months_pos P inp plan h

set_option maxRecDepth 4000 in
/-- C7 witness: a target date exactly equal to the reference date yields
`pastTarget` (the boundary case of the spec). -/
theorem claim7_witness :
    simulateRetirementPlan powModelZero
      ⟨some ⟨1995, 0, 1⟩, .fin 30, none, .fin 0, some [.fin 500], ⟨2025, 0, 1⟩⟩ =
      .error .pastTarget ∧
    0 < 1 :=
  ⟨(claim7_past_target powModelZero ⟨1995, 0, 1⟩ ⟨2025, 0, 1⟩ ⟨2025, 0, 1⟩ 30 500 0
      (by norm_num) (by norm_num) (by with_unfolding_all decide) (by decide) (by decide)
      (by decide) (by decide)).1 (by decide),
    by norm_num⟩

/-! ## Claim C9: the advisory year mismatch -/

/-- C9 (confirmed): with an otherwise-valid input, a supplied integral
retirement year at or after the birth year never fails the simulation; the
returned plan carries `yearMismatch = { expected, provided }` exactly when
the supplied year differs from the target date's year, and `none` when no
year was supplied or the years agree. -/
theorem claim9_year_mismatch (P : PowModel) (bd today td : JsDate) (a c r : ℚ)
    (ry : Option JsNum) (m : ℕ)
    (ha : 0 < a) (hc : 0 < c) (hr : -1 ≤ r)
    (hry : ry = none ∨ ∃ qy : ℚ, ry = some (.fin qy) ∧ qy.den = 1 ∧ (bd.year : ℚ) ≤ qy)
    (htd : addYears (some bd) (.fin a) = .ok td)
    (hm : monthsBetweenDates (some today) (some td) = .ok (m + 1)) :
    ∃ plan : RetirementPlan,
      simulateRetirementPlan P ⟨some bd, .fin a, ry, .fin r, some [.fin c], today⟩ =
        .ok plan ∧
      plan.expectedRetirementYear = td.year ∧
      plan.yearMismatch = (match ry with
        | some (.fin q) => if q ≠ (td.year : ℚ) then some ⟨td.year, q⟩ else none
        | some _ => none
        | none => none) := by
  rw [simulate_reduce P bd today td a c ha hc ry hry (.fin r) rfl htd (m + 1) hm]
  rw [if_neg (by omega), annualRate_fin_ok P r, if_neg (by linarith)]
  by_cases h0 : 1 + r = 0
  · rw [if_pos h0]
    simp only [buildScenarios_singleton P (0 - 1) c (m + 1) (by omega)]
    exact ⟨_, rfl, rfl, rfl⟩
  · rw [if_neg h0]
    simp only [buildScenarios_singleton P (P.frac (1 + r) (1/12) - 1) c (m + 1) (by omega)]
    exact ⟨_, rfl, rfl, rfl⟩

set_option maxRecDepth 4000 in
/-- C9 witness: the mismatch theorem applied with a supplied year 2050
against an expected 2026, and with no supplied year. -/
theorem claim9_witness :
    (∃ plan : RetirementPlan,
      simulateRetirementPlan powModelZero
        ⟨some ⟨2000, 0, 1⟩, .fin 26, some (.fin 2050), .fin 0, some [.fin 500],
          ⟨2025, 0, 1⟩⟩ = .ok plan ∧
      plan.expectedRetirementYear = 2026 ∧
      plan.yearMismatch = (if (2050 : ℚ) ≠ ((2026 : Int) : ℚ) then
        some ⟨2026, 2050⟩ else none)) ∧
    (∃ plan : RetirementPlan,
      simulateRetirementPlan powModelZero
        ⟨some ⟨2000, 0, 1⟩, .fin 26, none, .fin 0, some [.fin 500], ⟨2025, 0, 1⟩⟩ =
        .ok plan ∧
      plan.expectedRetirementYear = 2026 ∧
      plan.yearMismatch = none) := by
  constructor
  · exact claim9_year_mismatch powModelZero ⟨2000, 0, 1⟩ ⟨2025, 0, 1⟩ ⟨2026, 0, 1⟩
      26 500 0 (some (.fin 2050)) 11 (by norm_num) (by norm_num) (by norm_num)
      (Or.inr ⟨2050, rfl, by with_unfolding_all decide, by norm_num⟩)
      (by with_unfolding_all decide) (by with_unfolding_all decide)
  · exact claim9_year_mismatch powModelZero ⟨2000, 0, 1⟩ ⟨2025, 0, 1⟩ ⟨2026, 0, 1⟩
      26 500 0 none 11 (by norm_num) (by norm_num) (by norm_num) (Or.inl rfl)
      (by with_unfolding_all decide) (by with_unfolding_all decide)

/-! ## Claim C6: `addYears` and the Feb 29 clamp -/

set_option maxRecDepth 4000 in
/-- C6 counterexample: Feb 29 of year 96 is a valid normalized date (year
96 is a leap year), but `addYears` rebuilds it with `Date.UTC`, whose
two-digit-year rule turns year 96 into 1996; adding one year therefore
yields Feb 28 of 1997, not of 97 as the claim ("Feb 28 of the resulting
year") requires. -/
theorem claim6_counterexample :
    addYears (some ⟨96, 1, 29⟩) (.fin 1) = .ok ⟨1997, 1, 28⟩ ∧
    (⟨96, 1, 29⟩ : JsDate).ValidCivil ∧
    (Except.ok (⟨1997, 1, 28⟩ : JsDate) : Except FinErr JsDate) ≠
      .ok ⟨96 + 1, 1, 28⟩ := by
  refine ⟨?_, by decide, by decide⟩
  with_unfolding_all decide

/-- C6 (corrected): for every Feb 29 date whose year is outside the 0..99
band that `Date.UTC` remaps, adding an integer year count that lands on a
non-leap year clamps to Feb 28 of the resulting year (the `setUTCDate(0)`
step back from the March 1 overflow), and `addYears` throws its
TypeError conditions exactly on a missing/invalid date or a non-finite
year count. -/
theorem claim6_addYears_clamp (Y yrs : Int)
    (hl : isLeap Y = true) (hy : ¬(0 ≤ Y ∧ Y ≤ 99)) (hnl : isLeap (Y + yrs) = false) :
    addYears (some ⟨Y, 1, 29⟩) (.fin (yrs : ℚ)) = .ok ⟨Y + yrs, 1, 28⟩ ∧
    (∀ years : JsNum, addYears none years = .error .badDateArg) ∧
    (∀ d : JsDate, addYears (some d) .nan = .error .badYearsArg) ∧
    (∀ d : JsDate, addYears (some d) .inf = .error .badYearsArg) ∧
    (∀ d : JsDate, addYears (some d) .ninf = .error .badYearsArg) := by
  refine ⟨?_, fun years => rfl, fun d => rfl, fun d => rfl, fun d => rfl⟩
  have hvalid : (⟨Y, 1, 29⟩ : JsDate).ValidCivil := by
    refine ⟨by norm_num, by norm_num, by norm_num, ?_⟩
    simp [daysInMonth_feb_leap hl]
  unfold addYears
  simp only []
  have hutc : dateUTC Y 1 29 = (⟨Y, 1, 29⟩ : JsDate) := dateUTC_of_valid hvalid hy
  rw [hutc]
  simp only []
  have htr : ratTrunc ((Y : ℚ) + (yrs : ℚ)) = Y + yrs := by
    rw [show ((Y : ℚ) + (yrs : ℚ)) = ((Y + yrs : Int) : ℚ) by push_cast; ring]
    exact ratTrunc_intCast (Y + yrs)
  rw [htr]
  have hfeb : daysInMonth (Y + yrs) 1 = 28 := daysInMonth_feb hnl
  have h31 : daysInMonth (Y + yrs) 2 = 31 := by simp [daysInMonth]
  have hr1 : setUTCFullYear ⟨Y, 1, 29⟩ (Y + yrs) = ⟨Y + yrs, 2, 1⟩ := by
    unfold setUTCFullYear mkNoRemap
    simp only []
    rw [show Int.ediv 1 12 = 0 from rfl, show Int.emod 1 12 = 1 from rfl, add_zero]
    rw [normDay_step_up (by norm_num) (by norm_num) (by rw [hfeb]; norm_num)
      (by norm_num)]
    rw [hfeb]
    rw [normDay_stop _ (by norm_num) (by rw [show (1:Int)+1 = 2 from rfl, h31]; norm_num)]
    norm_num
  rw [hr1]
  rw [if_pos (by norm_num : ((⟨Y + yrs, 2, 1⟩ : JsDate).month ≠ (1 : Int)))]
  have hr2 : setUTCDate ⟨Y + yrs, 2, 1⟩ 0 = ⟨Y + yrs, 1, 28⟩ := by
    unfold setUTCDate mkNoRemap
    simp only []
    rw [show Int.ediv 2 12 = 0 from rfl, show Int.emod 2 12 = 2 from rfl, add_zero]
    rw [normDay_step_down (by norm_num) (by norm_num) (by norm_num)]
    rw [show (2 : Int) - 1 = 1 from rfl, hfeb]
    rw [normDay_stop _ (by norm_num) (by rw [hfeb]; norm_num)]
    norm_num
  rw [hr2]

set_option maxRecDepth 4000 in
/-- C6 witness: Feb 29, 2024 plus one year clamps to Feb 28, 2025, and the
invalid-argument conditions throw. -/
theorem claim6_witness :
    addYears (some ⟨2024, 1, 29⟩) (.fin ((1 : Int) : ℚ)) = .ok ⟨2024 + 1, 1, 28⟩ ∧
    addYears none (.fin 1) = .error .badDateArg ∧
    addYears (some ⟨2024, 1, 29⟩) .nan = .error .badYearsArg := by
  have h := claim6_addYears_clamp 2024 1 (by decide) (by decide) (by decide)
  exact ⟨h.1, h.2.1 (.fin 1), h.2.2.1 ⟨2024, 1, 29⟩⟩

/-! ## Lemmas for the `parseISODate` round trip -/

lemma normDay_step_down0 {fuel : ℕ} (hf : fuel ≠ 0) {y d : Int} (h1 : d < 1) :
    normDay fuel y 0 d = normDay (fuel - 1) (y - 1) 11 (d + daysInMonth (y - 1) 11) := by
  cases fuel with
  | zero => exact absurd rfl hf
  | succ n =>
    simp only [Nat.add_sub_cancel]
    conv_lhs => rw [normDay]
    rw [if_pos h1]
    simp

lemma normDay_month_range (fuel : ℕ) : ∀ (y m d : Int), 0 ≤ m → m ≤ 11 →
    0 ≤ (normDay fuel y m d).month ∧ (normDay fuel y m d).month ≤ 11 := by
  induction fuel with
  | zero => intro y m d h0 h1; exact ⟨h0, h1⟩
  | succ n ih =>
    intro y m d h0 h1
    unfold normDay
    simp only []
    split_ifs <;> first
      | exact ⟨h0, h1⟩
      | exact ih _ _ _ (by omega) (by omega)

lemma normDay_year_lb (fuel : ℕ) : ∀ (y m d : Int),
    y - fuel ≤ (normDay fuel y m d).year := by
  induction fuel with
  | zero => intro y m d; simp [normDay]
  | succ n ih =>
    intro y m d
    unfold normDay
    simp only []
    split_ifs <;> first
      | (simp only []; push_cast; omega)
      | exact le_trans (by push_cast; omega) (ih _ _ _)

lemma normDay_mi_mono (fuel : ℕ) : ∀ (y m d : Int), 1 ≤ d →
    y * 12 + m ≤ (normDay fuel y m d).year * 12 + (normDay fuel y m d).month := by
  induction fuel with
  | zero => intro y m d _; simp [normDay]
  | succ n ih =>
    intro y m d hd
    have hge := daysInMonth_ge y m
    unfold normDay
    simp only []
    split_ifs <;> first
      | omega
      | (simp only []; omega)
      | exact le_trans (by omega) (ih _ _ _ (by omega))

lemma normDay_mi_strict {fuel : ℕ} (hf : fuel ≠ 0) {y m d : Int}
    (h1 : 1 ≤ d) (h2 : daysInMonth y m < d) (hm0 : 0 ≤ m) (hm1 : m ≤ 11) :
    y * 12 + m < (normDay fuel y m d).year * 12 + (normDay fuel y m d).month := by
  have hge := daysInMonth_ge y m
  by_cases hm : m = 11
  · subst hm
    rw [normDay_step_up11 hf h1 h2]
    have := normDay_mi_mono (fuel - 1) (y + 1) 0 (d - daysInMonth y 11) (by omega)
    omega
  · rw [normDay_step_up hf h1 h2 hm]
    have := normDay_mi_mono (fuel - 1) y (m + 1) (d - daysInMonth y m) (by omega)
    omega

lemma digitVal_le9 {c : Char} (h : isDigitChar c = true) : digitVal c ≤ 9 := by
  have h' : 48 ≤ c.toNat ∧ c.toNat ≤ 57 := by
    simpa [isDigitChar, Bool.and_eq_true, decide_eq_true_eq] using h
  unfold digitVal
  omega

lemma digitChar_digitVal {c : Char} (h : isDigitChar c = true) :
    digitChar (digitVal c) = c := by
  have h' : 48 ≤ c.toNat ∧ c.toNat ≤ 57 := by
    simpa [isDigitChar, Bool.and_eq_true, decide_eq_true_eq] using h
  have hc := Char.ofNat_toNat c
  have h10 : c.toNat = 48 ∨ c.toNat = 49 ∨ c.toNat = 50 ∨ c.toNat = 51 ∨ c.toNat = 52 ∨
      c.toNat = 53 ∨ c.toNat = 54 ∨ c.toNat = 55 ∨ c.toNat = 56 ∨ c.toNat = 57 := by omega
  unfold digitVal
  rcases h10 with h0 | h0 | h0 | h0 | h0 | h0 | h0 | h0 | h0 | h0 <;>
    rw [← hc, h0] <;> decide

lemma pad4_digits {v1 v2 v3 v4 : ℕ} (h1 : v1 ≤ 9) (h2 : v2 ≤ 9) (h3 : v3 ≤ 9)
    (h4 : v4 ≤ 9) :
    pad4 (v1 * 1000 + v2 * 100 + v3 * 10 + v4) =
      [digitChar v1, digitChar v2, digitChar v3, digitChar v4] := by
  unfold pad4
  have e1 : (v1 * 1000 + v2 * 100 + v3 * 10 + v4) / 1000 % 10 = v1 := by omega
  have e2 : (v1 * 1000 + v2 * 100 + v3 * 10 + v4) / 100 % 10 = v2 := by omega
  have e3 : (v1 * 1000 + v2 * 100 + v3 * 10 + v4) / 10 % 10 = v3 := by omega
  have e4 : (v1 * 1000 + v2 * 100 + v3 * 10 + v4) % 10 = v4 := by omega
  rw [e1, e2, e3, e4]

lemma pad2_digits {v1 v2 : ℕ} (h1 : v1 ≤ 9) (h2 : v2 ≤ 9) :
    pad2 (v1 * 10 + v2) = [digitChar v1, digitChar v2] := by
  unfold pad2
  have e1 : (v1 * 10 + v2) / 10 % 10 = v1 := by omega
  have e2 : (v1 * 10 + v2) % 10 = v2 := by omega
  rw [e1, e2]

lemma ediv12_lb {M : Int} (h : -1 ≤ M) : -1 ≤ Int.ediv M 12 := by
  rcases le_or_lt 0 M with h0 | h0
  · exact le_trans (by norm_num) (Int.ediv_nonneg h0 (by norm_num))
  · have hM : M = -1 := by omega
    subst hM
    decide

lemma parse_accepts (c1 c2 c3 c4 c5 c6 c7 c8 : Char)
    (h1 : isDigitChar c1 = true) (h2 : isDigitChar c2 = true)
    (h3 : isDigitChar c3 = true) (h4 : isDigitChar c4 = true)
    (h5 : isDigitChar c5 = true) (h6 : isDigitChar c6 = true)
    (h7 : isDigitChar c7 = true) (h8 : isDigitChar c8 = true)
    (hy : 100 ≤ digitVal c1 * 1000 + digitVal c2 * 100 + digitVal c3 * 10 + digitVal c4)
    (hm1 : 1 ≤ digitVal c5 * 10 + digitVal c6) (hm2 : digitVal c5 * 10 + digitVal c6 ≤ 12)
    (hd1 : 1 ≤ digitVal c7 * 10 + digitVal c8)
    (hd2 : ((digitVal c7 * 10 + digitVal c8 : ℕ) : Int) ≤
      daysInMonth ((digitVal c1 * 1000 + digitVal c2 * 100 + digitVal c3 * 10 + digitVal c4 : ℕ) : Int)
        (((digitVal c5 * 10 + digitVal c6 : ℕ) : Int) - 1)) :
    parseISODate ⟨[c1, c2, c3, c4, '-', c5, c6, '-', c7, c8]⟩ =
      some ⟨((digitVal c1 * 1000 + digitVal c2 * 100 + digitVal c3 * 10 + digitVal c4 : ℕ) : Int),
            ((digitVal c5 * 10 + digitVal c6 : ℕ) : Int) - 1,
            ((digitVal c7 * 10 + digitVal c8 : ℕ) : Int)⟩ := by
  unfold parseISODate
  simp only []
  rw [if_pos ⟨trivial, trivial, h1, h2, h3, h4, h5, h6, h7, h8⟩]
  have hutc : dateUTC
      ((digitVal c1 * 1000 + digitVal c2 * 100 + digitVal c3 * 10 + digitVal c4 : ℕ) : Int)
      (((digitVal c5 * 10 + digitVal c6 : ℕ) : Int) - 1)
      ((digitVal c7 * 10 + digitVal c8 : ℕ) : Int) =
      ⟨((digitVal c1 * 1000 + digitVal c2 * 100 + digitVal c3 * 10 + digitVal c4 : ℕ) : Int),
       ((digitVal c5 * 10 + digitVal c6 : ℕ) : Int) - 1,
       ((digitVal c7 * 10 + digitVal c8 : ℕ) : Int)⟩ := by
    unfold dateUTC
    rw [if_neg (by push_cast; omega)]
    exact mkNoRemap_in_range (by push_cast; omega) (by push_cast; omega)
      (by push_cast; omega) hd2
  rw [hutc]
  rw [if_pos ⟨rfl, rfl, rfl⟩]

set_option maxRecDepth 2000 in
lemma parse_sound (s : String) (dt : JsDate) (h : parseISODate s = some dt) :
    formatISO dt = s ∧ dt.ValidCivil ∧ 100 ≤ dt.year := by
  obtain ⟨l⟩ := s
  unfold parseISODate at h
  simp only [] at h
  rcases l with _ | ⟨c1, _ | ⟨c2, _ | ⟨c3, _ | ⟨c4, _ | ⟨c5, _ | ⟨c6, _ | ⟨c7, _ | ⟨c8, _ |
    ⟨c9, _ | ⟨c10, _ | ⟨c11, rest⟩⟩⟩⟩⟩⟩⟩⟩⟩⟩⟩
  case cons.cons.cons.cons.cons.cons.cons.cons.cons.cons.nil =>
    have h' : (if c5 = '-' ∧ c8 = '-' ∧ isDigitChar c1 = true ∧ isDigitChar c2 = true ∧
          isDigitChar c3 = true ∧ isDigitChar c4 = true ∧ isDigitChar c6 = true ∧
          isDigitChar c7 = true ∧ isDigitChar c9 = true ∧ isDigitChar c10 = true then
        (if (dateUTC (↑(digitVal c1 * 1000 + digitVal c2 * 100 + digitVal c3 * 10 + digitVal c4))
                (↑(digitVal c6 * 10 + digitVal c7) - 1)
                ↑(digitVal c9 * 10 + digitVal c10)).year =
              ↑(digitVal c1 * 1000 + digitVal c2 * 100 + digitVal c3 * 10 + digitVal c4) ∧
            (dateUTC (↑(digitVal c1 * 1000 + digitVal c2 * 100 + digitVal c3 * 10 + digitVal c4))
                (↑(digitVal c6 * 10 + digitVal c7) - 1)
                ↑(digitVal c9 * 10 + digitVal c10)).month =
              ↑(digitVal c6 * 10 + digitVal c7) - 1 ∧
            (dateUTC (↑(digitVal c1 * 1000 + digitVal c2 * 100 + digitVal c3 * 10 + digitVal c4))
                (↑(digitVal c6 * 10 + digitVal c7) - 1)
                ↑(digitVal c9 * 10 + digitVal c10)).day =
              ↑(digitVal c9 * 10 + digitVal c10) then
          some (dateUTC
            (↑(digitVal c1 * 1000 + digitVal c2 * 100 + digitVal c3 * 10 + digitVal c4))
            (↑(digitVal c6 * 10 + digitVal c7) - 1)
            ↑(digitVal c9 * 10 + digitVal c10))
        else none)
        else none) = some dt := h
    clear h
    split_ifs at h' with hcond hchk
    obtain ⟨hh1, hh2, h1, h2, h3, h4, h5, h6, h7, h8⟩ := hcond
    subst hh1
    subst hh2
    rw [Option.some.injEq] at h'
    obtain ⟨hy, hm, hd⟩ := hchk
    set Nv := digitVal c1 * 1000 + digitVal c2 * 100 + digitVal c3 * 10 + digitVal c4 with hNv
    set Mv := digitVal c6 * 10 + digitVal c7 with hMv
    set Dv := digitVal c9 * 10 + digitVal c10 with hDv
    have hb1 := digitVal_le9 h1
    have hb2 := digitVal_le9 h2
    have hb3 := digitVal_le9 h3
    have hb4 := digitVal_le9 h4
    have hb6 := digitVal_le9 h5
    have hb7 := digitVal_le9 h6
    have hb9 := digitVal_le9 h7
    have hb10 := digitVal_le9 h8
    have hDv99 : Dv ≤ 99 := by omega
    have hna : ((Dv : ℤ)).natAbs = Dv := Int.natAbs_ofNat Dv
    have h100 : 100 ≤ Nv := by
      by_contra hlt
      push_neg at hlt
      have hremap : dateUTC (↑Nv) (↑Mv - 1) (↑Dv) =
          normDay (((Dv : ℤ)).natAbs + 2) (1900 + ↑Nv + Int.ediv ((Mv : ℤ) - 1) 12)
            (Int.emod ((Mv : ℤ) - 1) 12) ↑Dv := by
        unfold dateUTC mkNoRemap
        rw [if_pos ⟨by push_cast; omega, by push_cast; omega⟩]
      rw [hremap] at hy
      have hylb := normDay_year_lb (((Dv : ℤ)).natAbs + 2)
        (1900 + ↑Nv + Int.ediv ((Mv : ℤ) - 1) 12) (Int.emod ((Mv : ℤ) - 1) 12) ↑Dv
      have hed : -1 ≤ Int.ediv ((Mv : ℤ) - 1) 12 := ediv12_lb (by push_cast; omega)
      rw [hy, hna] at hylb
      push_cast at hylb
      omega
    have hnoremap : dateUTC (↑Nv) (↑Mv - 1) (↑Dv) =
        normDay (((Dv : ℤ)).natAbs + 2) (↑Nv + Int.ediv ((Mv : ℤ) - 1) 12)
          (Int.emod ((Mv : ℤ) - 1) 12) ↑Dv := by
      unfold dateUTC mkNoRemap
      rw [if_neg (by push_cast; omega)]
    have hMid : 0 ≤ (Mv : ℤ) - 1 ∧ (Mv : ℤ) - 1 ≤ 11 := by
      have hem0 : 0 ≤ Int.emod ((Mv : ℤ) - 1) 12 := Int.emod_nonneg _ (by norm_num)
      have hem1 : Int.emod ((Mv : ℤ) - 1) 12 < 12 := Int.emod_lt_of_pos _ (by norm_num)
      have hrange := normDay_month_range (((Dv : ℤ)).natAbs + 2)
        (↑Nv + Int.ediv ((Mv : ℤ) - 1) 12) (Int.emod ((Mv : ℤ) - 1) 12) ↑Dv hem0 (by omega)
      rw [hnoremap] at hm
      rw [hm] at hrange
      exact hrange
    have hed0 : Int.ediv ((Mv : ℤ) - 1) 12 = 0 :=
      Int.ediv_eq_zero_of_lt (by omega) (by omega)
    have hem : Int.emod ((Mv : ℤ) - 1) 12 = (Mv : ℤ) - 1 :=
      Int.emod_eq_of_lt (by omega) (by omega)
    have hmk : dateUTC (↑Nv) (↑Mv - 1) (↑Dv) =
        normDay (((Dv : ℤ)).natAbs + 2) (↑Nv) ((Mv : ℤ) - 1) ↑Dv := by
      rw [hnoremap, hed0, hem, add_zero]
    rw [hmk] at hy hm hd h'
    rcases Nat.eq_zero_or_pos Dv with hD0 | hD1
    · exfalso
      rw [hD0] at hd
      norm_num at hd
      by_cases hM1 : (Mv : ℤ) - 1 = 0
      · rw [hM1] at hd
        rw [normDay_step_down0 (by norm_num) (by norm_num)] at hd
        have h31 : daysInMonth ((Nv : ℤ) - 1) 11 = 31 := by simp [daysInMonth]
        rw [h31] at hd
        rw [normDay_stop _ (by norm_num) (by rw [h31]; norm_num)] at hd
        simp at hd
      · rw [normDay_step_down (by norm_num) (by norm_num) hM1] at hd
        have hge := daysInMonth_ge (Nv : ℤ) ((Mv : ℤ) - 1 - 1)
        have hle := daysInMonth_le (Nv : ℤ) ((Mv : ℤ) - 1 - 1)
        rw [normDay_stop _ (by omega) (by omega)] at hd
        simp at hd
        omega
    · by_cases hover : daysInMonth (↑Nv) ((Mv : ℤ) - 1) < ↑Dv
      · exfalso
        have hstrict := @normDay_mi_strict (((Dv : ℤ)).natAbs + 2) (by omega) (↑Nv)
          ((Mv : ℤ) - 1) (↑Dv) (by push_cast; omega) hover
          (by omega) (by omega)
        rw [hy, hm] at hstrict
        exact lt_irrefl _ hstrict
      · have hstop : normDay (((Dv : ℤ)).natAbs + 2) (↑Nv) ((Mv : ℤ) - 1) ↑Dv =
            ⟨(Nv : ℤ), (Mv : ℤ) - 1, (Dv : ℤ)⟩ :=
          normDay_stop _ (by push_cast; omega) (by omega)
        rw [hstop] at h'
        subst h'
        have hvc : (⟨(Nv : ℤ), (Mv : ℤ) - 1, (Dv : ℤ)⟩ : JsDate).ValidCivil := by
          refine ⟨?_, ?_, ?_, ?_⟩ <;> simp only [] <;> push_cast <;> omega
        refine ⟨?_, hvc, by simp only []; push_cast; omega⟩
        unfold formatISO
        simp only []
        rw [show ((Nv : ℤ)).toNat = Nv from Int.toNat_natCast Nv]
        rw [show ((Mv : ℤ) - 1 + 1).toNat = Mv by
          rw [sub_add_cancel]; exact Int.toNat_natCast Mv]
        rw [show ((Dv : ℤ)).toNat = Dv from Int.toNat_natCast Dv]
        rw [hNv, hMv, hDv]
        rw [pad4_digits hb1 hb2 hb3 hb4, pad2_digits hb6 hb7, pad2_digits hb9 hb10]
        rw [digitChar_digitVal h1, digitChar_digitVal h2, digitChar_digitVal h3,
          digitChar_digitVal h4, digitChar_digitVal h5, digitChar_digitVal h6,
          digitChar_digitVal h7, digitChar_digitVal h8]
        rfl
  all_goals simp at h

/-! ## Claim C10: `parseISODate` round trip -/

set_option maxRecDepth 4000 in
/-- C10 counterexample: "0099-12-31" is a strict `YYYY-MM-DD` string
denoting a possible calendar date, yet `parseISODate` returns `none`: the
`Date.UTC` two-digit-year rule turns year 99 into 1999, so the roundtrip
component check fails. -/
theorem claim10_counterexample :
    parseISODate ("0099-12-31") = none ∧
    (none ≠ some (⟨99, 11, 31⟩ : JsDate)) := by
  refine ⟨?_, by simp⟩
  with_unfolding_all decide

set_option maxRecDepth 4000 in
/-- C10 (corrected): for every strict `YYYY-MM-DD` string denoting a
possible calendar date with year at least 100, `parseISODate` returns that
date and formatting it back (`toISOString().slice(0, 10)`) yields the
identical string; conversely EVERY accepted string formats back to itself
and denotes a valid normalized date with year at least 100 (so malformed
text and calendar-impossible dates such as `2023-02-30` and a non-leap
`2023-02-29` yield `none`, and nothing is thrown - the function is total
into an option). -/
theorem claim10_roundtrip :
    (∀ c1 c2 c3 c4 c5 c6 c7 c8 : Char,
      isDigitChar c1 = true → isDigitChar c2 = true →
      isDigitChar c3 = true → isDigitChar c4 = true →
      isDigitChar c5 = true → isDigitChar c6 = true →
      isDigitChar c7 = true → isDigitChar c8 = true →
      100 ≤ digitVal c1 * 1000 + digitVal c2 * 100 + digitVal c3 * 10 + digitVal c4 →
      1 ≤ digitVal c5 * 10 + digitVal c6 → digitVal c5 * 10 + digitVal c6 ≤ 12 →
      1 ≤ digitVal c7 * 10 + digitVal c8 →
      ((digitVal c7 * 10 + digitVal c8 : ℕ) : Int) ≤
        daysInMonth
          ((digitVal c1 * 1000 + digitVal c2 * 100 + digitVal c3 * 10 + digitVal c4 : ℕ) : Int)
          (((digitVal c5 * 10 + digitVal c6 : ℕ) : Int) - 1) →
      parseISODate ⟨[c1, c2, c3, c4, '-', c5, c6, '-', c7, c8]⟩ =
        some ⟨((digitVal c1 * 1000 + digitVal c2 * 100 + digitVal c3 * 10 + digitVal c4 : ℕ) : Int),
              ((digitVal c5 * 10 + digitVal c6 : ℕ) : Int) - 1,
              ((digitVal c7 * 10 + digitVal c8 : ℕ) : Int)⟩) ∧
    (∀ (s : String) (dt : JsDate), parseISODate s = some dt →
      formatISO dt = s ∧ dt.ValidCivil ∧ 100 ≤ dt.year) ∧
    parseISODate ("2023-02-30") = none ∧
    parseISODate ("2023-02-29") = none := by
  refine ⟨parse_accepts, parse_sound, ?_, ?_⟩ <;> with_unfolding_all decide

set_option maxRecDepth 4000 in
/-- C10 witness: the round-trip theorem applied to the leap day
`2024-02-29`. -/
theorem claim10_witness :
    parseISODate ("2024-02-29") = some ⟨2024, 1, 29⟩ ∧
    formatISO ⟨2024, 1, 29⟩ = "2024-02-29" := by
  have h := claim10_roundtrip
  have hp : parseISODate ("2024-02-29") = some ⟨2024, 1, 29⟩ := by
    have h2 := h.1 ('2') ('0') ('2') ('4') ('0') ('2') ('2') ('9')
      (by decide) (by decide) (by decide) (by decide) (by decide) (by decide)
      (by decide) (by decide) (by decide) (by decide) (by decide) (by decide)
      (by decide)
    exact h2
  refine ⟨hp, (h.2.1 ("2024-02-29") ⟨2024, 1, 29⟩ hp).1⟩
